import Mathlib

/-!
Verification of the solar-system core (transform solver, camera rig,
simulation clock) against its specification.

The scalar state machines (simulation clock, scroll/pitch clamping) are
embedded over `ℚ`; the geometric parts (world matrices, camera basis
vectors) are embedded over `ℝ` with exact trigonometry.
-/

namespace SolarSystem

/-! ### Scalar state: clamping (std::clamp), simulation clock, scroll and pitch updates -/

/-- Model of std::clamp on rationals: `clamp(v, lo, hi)`. -/
def clampQ (v lo hi : ℚ) : ℚ :=
  if v < lo then lo else if hi < v then hi else v

theorem clampQ_mem (v lo hi : ℚ) (h : lo ≤ hi) :
    lo ≤ clampQ v lo hi ∧ clampQ v lo hi ≤ hi := by
  unfold clampQ
  split_ifs with h1 h2 <;> constructor <;> linarith

/-- Simulation-speed presets bound to keys 0-4 in key_callback
(`float speeds[] = {0.0f, 0.5f, 1.0f, 2.0f, 5.0f}`). -/
def speeds : Fin 5 → ℚ := ![0, 1/2, 1, 2, 5]

/-- State of the simulation clock: `accumulatedSimTime` and
`simulationSpeed` from main.cpp. -/
structure ClockState where
  time : ℚ
  speed : ℚ
  deriving DecidableEq

/-- Events affecting the clock: one render-loop iteration with wall-clock
delta `d` (main.cpp lines 308-312), or a speed-preset key press
(key_callback lines 639-642). -/
inductive ClockEvent where
  | frame (d : ℚ)
  | setSpeed (i : Fin 5)
  deriving DecidableEq

/-- One clock transition.  A frame performs
`accumulatedSimTime += deltaTime * simulationSpeed`; a preset key sets
`simulationSpeed = speeds[key - GLFW_KEY_0]`. -/
def clockEventStep (s : ClockState) : ClockEvent → ClockState
  | .frame d => { s with time := s.time + d * s.speed }
  | .setSpeed i => { s with speed := speeds i }

/-- Running the clock over a sequence of events. -/
def clockRun (s : ClockState) (evs : List ClockEvent) : ClockState :=
  evs.foldl clockEventStep s

/-- The wall-clock delta carried by an event (0 for key presses). -/
def frameDelta : ClockEvent → ℚ
  | .frame d => d
  | .setSpeed _ => 0

/-- Claim C4: with `simulationSpeedMultiplier = 0`, the per-frame clock
update leaves `accumulatedSimTime` unchanged for any number of frames with
any frame-delta values, and hence every orbit/rotation angle `t * w`
derived from it is unchanged. -/
theorem pause_freezes_sim_time (t0 : ℚ) (ds : List ℚ) :
    (clockRun ⟨t0, 0⟩ (ds.map ClockEvent.frame)).time = t0 ∧
      ∀ w : ℚ, (clockRun ⟨t0, 0⟩ (ds.map ClockEvent.frame)).time * w = t0 * w := by
  have h : (clockRun ⟨t0, 0⟩ (ds.map ClockEvent.frame)).time = t0 := by
    induction ds generalizing t0 with
    | nil => rfl
    | cons d ds ih =>
        simpa [clockRun, clockEventStep] using ih t0
  exact ⟨h, fun w => by rw [h]⟩

/-- Claim C9: starting from any clock state with non-negative speed (the
initial multiplier is 1.0), a run whose frame deltas are all non-negative
never decreases `accumulatedSimTime`, because every settable preset
(0, 0.5, 1, 2, 5) is non-negative. -/
theorem sim_time_monotone (s : ClockState) (evs : List ClockEvent)
    (hs : 0 ≤ s.speed) (hd : ∀ e ∈ evs, 0 ≤ frameDelta e) :
    s.time ≤ (clockRun s evs).time ∧ 0 ≤ (clockRun s evs).speed := by
  induction evs generalizing s with
  | nil => exact ⟨le_refl _, hs⟩
  | cons e evs ih =>
      have hde : 0 ≤ frameDelta e := hd e (List.mem_cons_self e evs)
      have hd' : ∀ e' ∈ evs, 0 ≤ frameDelta e' :=
        fun e' he' => hd e' (List.mem_cons_of_mem e he')
      cases e with
      | frame d =>
          have hstep : s.time ≤ s.time + d * s.speed := by
            have : 0 ≤ d * s.speed := mul_nonneg hde hs
            linarith
          have h := ih { s with time := s.time + d * s.speed } hs hd'
          exact ⟨le_trans hstep (by simpa [clockRun, clockEventStep] using h.1),
                 by simpa [clockRun, clockEventStep] using h.2⟩
      | setSpeed i =>
          have hsp : 0 ≤ speeds i := by
            fin_cases i <;> simp [speeds]
          have h := ih { s with speed := speeds i } hsp hd'
          exact ⟨by simpa [clockRun, clockEventStep] using h.1,
                 by simpa [clockRun, clockEventStep] using h.2⟩

/-- Witness for C9 at a concrete run: pause, advance, speed 5, advance. -/
theorem sim_time_monotone_witness :
    (0 : ℚ) ≤ (1 : ℚ) ∧
      (3 : ℚ) ≤ (clockRun ⟨3, 1⟩
        [ClockEvent.frame 2, ClockEvent.setSpeed 0, ClockEvent.frame 7,
         ClockEvent.setSpeed 4, ClockEvent.frame 1]).time :=
  ⟨by norm_num,
   (sim_time_monotone ⟨3, 1⟩
      [ClockEvent.frame 2, ClockEvent.setSpeed 0, ClockEvent.frame 7,
       ClockEvent.setSpeed 4, ClockEvent.frame 1]
      (by norm_num) (by decide)).1⟩

/-! ### Orbit-lock scroll distance (scroll_callback, main.cpp lines 713-729) -/

/-- One scroll event while locked to a body of radius `radius`:
`lockedCameraDistance -= yoffset * 0.5f * (lockedCameraDistance * 0.1f)`
followed by
`std::clamp(lockedCameraDistance, radius * 1.5f, 50.0f * radius)`. -/
def scrollStep (radius d yoffset : ℚ) : ℚ :=
  clampQ (d - yoffset * (1/2) * (d * (1/10))) (radius * (3/2)) (50 * radius)

/-- Initial orbit distance set on lock entry in lockCameraToBody:
`lockedCameraDistance = cameraLockedTo->radius * 5.0f`. -/
def initialLockDistance (radius : ℚ) : ℚ := radius * 5

/-- Claim C5: while locked on a target of radius `r > 0`, the orbit
distance starts inside `[1.5*r, 50*r]` (lock entry sets `5*r`) and stays
inside that interval after any sequence of scroll deltas of any sign and
magnitude; in particular for `r = 1/2` it never leaves `[3/4, 25]`. -/
theorem orbit_distance_clamped (r : ℚ) (hr : 0 < r) :
    (r * (3/2) ≤ initialLockDistance r ∧ initialLockDistance r ≤ 50 * r) ∧
      ∀ d0 : ℚ, r * (3/2) ≤ d0 → d0 ≤ 50 * r →
        ∀ ys : List ℚ,
          r * (3/2) ≤ ys.foldl (scrollStep r) d0 ∧
            ys.foldl (scrollStep r) d0 ≤ 50 * r := by
  have hlh : r * (3/2) ≤ 50 * r := by linarith
  refine ⟨⟨by unfold initialLockDistance; linarith,
           by unfold initialLockDistance; linarith⟩, ?_⟩
  intro d0 h1 h2 ys
  induction ys generalizing d0 with
  | nil => exact ⟨h1, h2⟩
  | cons y ys ih =>
      have hs := clampQ_mem (d0 - y * (1/2) * (d0 * (1/10))) (r * (3/2)) (50 * r) hlh
      simpa [scrollStep] using ih (scrollStep r d0 y)
        (by simpa [scrollStep] using hs.1) (by simpa [scrollStep] using hs.2)

/-- Witness for C5 at `r = 1/2` with large scroll deltas in both
directions: the distance stays in `[3/4, 25]`. -/
theorem orbit_distance_clamped_witness :
    (0 : ℚ) < 1/2 ∧
      (1/2 : ℚ) * (3/2) ≤ [(1000 : ℚ), -1000, 7].foldl (scrollStep (1/2)) (5/2) ∧
        [(1000 : ℚ), -1000, 7].foldl (scrollStep (1/2)) (5/2) ≤ 50 * (1/2) :=
  ⟨by norm_num,
   (orbit_distance_clamped (1/2) (by norm_num)).2 (5/2) (by norm_num) (by norm_num)
     [1000, -1000, 7]⟩

/-! ### Pitch clamping in both camera modes -/

/-- Pitch component of Camera::ProcessMouseMovement (camera.cpp lines
71-89) with `constrainPitch` true, as at every call site:
`Pitch += yoffset * MouseSensitivity` then
`Pitch = std::clamp(Pitch, -89.0f, 89.0f)`. -/
def freeFlyPitchStep (sens p yoffset : ℚ) : ℚ :=
  clampQ (p + yoffset * sens) (-89) 89

/-- Orbit-pitch component of mouse_callback while locked (main.cpp lines
762-771): `lockedCameraOrbitPitch -= yoffset * 0.1f` then
`std::clamp(lockedCameraOrbitPitch, -89.0f, 89.0f)`. -/
def orbitPitchStep (p yoffset : ℚ) : ℚ :=
  clampQ (p - yoffset * (1/10)) (-89) 89

/-- Claim C6: in both camera modes, starting from a pitch inside
`[-89, 89]` (the initial pitch is 0), any sequence of look-input deltas
leaves the pitch inside `[-89, 89]`, strictly away from plus/minus 90;
and a step whose unclamped update reaches 89 saturates exactly at 89. -/
theorem pitch_clamped (sens p0 : ℚ) (h1 : -89 ≤ p0) (h2 : p0 ≤ 89) :
    (∀ dys : List ℚ,
        -89 ≤ dys.foldl (freeFlyPitchStep sens) p0 ∧
          dys.foldl (freeFlyPitchStep sens) p0 ≤ 89 ∧
            dys.foldl (freeFlyPitchStep sens) p0 < 90 ∧
              -90 < dys.foldl (freeFlyPitchStep sens) p0) ∧
      (∀ dys : List ℚ,
          -89 ≤ dys.foldl orbitPitchStep p0 ∧
            dys.foldl orbitPitchStep p0 ≤ 89 ∧
              dys.foldl orbitPitchStep p0 < 90 ∧
                -90 < dys.foldl orbitPitchStep p0) ∧
      (∀ p dy : ℚ, 89 ≤ p + dy * sens → freeFlyPitchStep sens p dy = 89) ∧
      (∀ p dy : ℚ, 89 ≤ p - dy * (1/10) → orbitPitchStep p dy = 89) := by
  have hlh : (-89 : ℚ) ≤ 89 := by norm_num
  refine ⟨?_, ?_, ?_, ?_⟩
  · intro dys
    have h : -89 ≤ dys.foldl (freeFlyPitchStep sens) p0 ∧
        dys.foldl (freeFlyPitchStep sens) p0 ≤ 89 := by
      induction dys generalizing p0 with
      | nil => exact ⟨h1, h2⟩
      | cons dy dys ih =>
          have hs := clampQ_mem (p0 + dy * sens) (-89) 89 hlh
          simpa [freeFlyPitchStep] using ih (freeFlyPitchStep sens p0 dy)
            (by simpa [freeFlyPitchStep] using hs.1)
            (by simpa [freeFlyPitchStep] using hs.2)
    exact ⟨h.1, h.2, by linarith [h.2], by linarith [h.1]⟩
  · intro dys
    have h : -89 ≤ dys.foldl orbitPitchStep p0 ∧
        dys.foldl orbitPitchStep p0 ≤ 89 := by
      induction dys generalizing p0 with
      | nil => exact ⟨h1, h2⟩
      | cons dy dys ih =>
          have hs := clampQ_mem (p0 - dy * (1/10)) (-89) 89 hlh
          simpa [orbitPitchStep] using ih (orbitPitchStep p0 dy)
            (by simpa [orbitPitchStep] using hs.1)
            (by simpa [orbitPitchStep] using hs.2)
    exact ⟨h.1, h.2, by linarith [h.2], by linarith [h.1]⟩
  · intro p dy hge
    unfold freeFlyPitchStep clampQ
    split_ifs with ha hb
    · linarith
    · rfl
    · linarith
  · intro p dy hge
    unfold orbitPitchStep clampQ
    split_ifs with ha hb
    · linarith
    · rfl
    · linarith

/-- Witness for C6 at default sensitivity `1/10`, initial pitch 0, with a
large one-direction look sequence: pitch lands inside the band. -/
theorem pitch_clamped_witness :
    ((-89 : ℚ) ≤ 0 ∧ (0 : ℚ) ≤ 89) ∧
      -89 ≤ [(10000 : ℚ), 500].foldl (freeFlyPitchStep (1/10)) 0 ∧
        [(10000 : ℚ), 500].foldl (freeFlyPitchStep (1/10)) 0 ≤ 89 :=
  ⟨⟨by norm_num, by norm_num⟩,
   ((pitch_clamped (1/10) 0 (by norm_num) (by norm_num)).1 [10000, 500]).1,
   ((pitch_clamped (1/10) 0 (by norm_num) (by norm_num)).1 [10000, 500]).2.1⟩

/-! ### Real-valued geometry: glm vectors and transform matrices -/

/-- A glm::vec3 over exact reals. -/
structure Vec3 where
  x : ℝ
  y : ℝ
  z : ℝ

instance : Add Vec3 := ⟨fun a b => ⟨a.x + b.x, a.y + b.y, a.z + b.z⟩⟩

instance : Sub Vec3 := ⟨fun a b => ⟨a.x - b.x, a.y - b.y, a.z - b.z⟩⟩

instance : Zero Vec3 := ⟨⟨0, 0, 0⟩⟩

theorem Vec3.ext_iff (a b : Vec3) : a = b ↔ a.x = b.x ∧ a.y = b.y ∧ a.z = b.z := by
  constructor
  · rintro rfl; exact ⟨rfl, rfl, rfl⟩
  · rcases a with ⟨ax, ay, az⟩
    rcases b with ⟨bx, by_, bz⟩
    rintro ⟨h1, h2, h3⟩
    simp_all

/-- glm dot product. -/
def dot3 (a b : Vec3) : ℝ := a.x * b.x + a.y * b.y + a.z * b.z

/-- glm cross product. -/
def cross3 (a b : Vec3) : Vec3 :=
  ⟨a.y * b.z - a.z * b.y, a.z * b.x - a.x * b.z, a.x * b.y - a.y * b.x⟩

/-- glm length of a vec3. -/
noncomputable def norm3 (v : Vec3) : ℝ := Real.sqrt (dot3 v v)

/-- glm::normalize: divide each component by the length. -/
noncomputable def normalize3 (v : Vec3) : Vec3 :=
  ⟨v.x / norm3 v, v.y / norm3 v, v.z / norm3 v⟩

theorem dot3_self_nonneg (v : Vec3) : 0 ≤ dot3 v v := by
  unfold dot3; nlinarith [sq_nonneg v.x, sq_nonneg v.y, sq_nonneg v.z]

theorem norm3_mul_self (v : Vec3) : norm3 v * norm3 v = dot3 v v :=
  Real.mul_self_sqrt (dot3_self_nonneg v)

/-- Normalizing a vector of unit dot product is the identity. -/
theorem normalize3_of_unit {v : Vec3} (h : dot3 v v = 1) : normalize3 v = v := by
  have hn : norm3 v = 1 := by rw [norm3, h, Real.sqrt_one]
  rcases v with ⟨vx, vy, vz⟩
  simp [normalize3, hn]

/-- Normalizing a vector whose squared length is `n * n` with `n > 0`
divides each component by `n`. -/
theorem normalize3_eq_div {v : Vec3} {n : ℝ} (hn : 0 < n)
    (h : dot3 v v = n * n) : normalize3 v = ⟨v.x / n, v.y / n, v.z / n⟩ := by
  have hnv : norm3 v = n := by
    rw [norm3, h, Real.sqrt_mul_self hn.le]
  simp [normalize3, hnv]

/-- A 4x4 real matrix (glm::mat4). -/
abbrev Mat4 := Matrix (Fin 4) (Fin 4) ℝ

/-- glm::translate(I, v). -/
def translateM (v : Vec3) : Mat4 :=
  !![1, 0, 0, v.x; 0, 1, 0, v.y; 0, 0, 1, v.z; 0, 0, 0, 1]

/-- glm::scale(I, vec3(s)). -/
def scaleM (s : ℝ) : Mat4 :=
  !![s, 0, 0, 0; 0, s, 0, 0; 0, 0, s, 0; 0, 0, 0, 1]

/-- The rotation matrix glm::rotate builds from an angle and an
already-normalized axis `a` (glm's matrix_transform: `c + temp*axis` etc.,
written row-major here; glm stores it column-major). -/
noncomputable def axisAngleM (theta : ℝ) (a : Vec3) : Mat4 :=
  let c := Real.cos theta
  let s := Real.sin theta
  !![c + a.x * a.x * (1 - c), a.x * a.y * (1 - c) - a.z * s, a.x * a.z * (1 - c) + a.y * s, 0;
     a.y * a.x * (1 - c) + a.z * s, c + a.y * a.y * (1 - c), a.y * a.z * (1 - c) - a.x * s, 0;
     a.z * a.x * (1 - c) - a.y * s, a.z * a.y * (1 - c) + a.x * s, c + a.z * a.z * (1 - c), 0;
     0, 0, 0, 1]

/-- glm::rotate(I, theta, v): glm normalizes the axis argument itself
before building the rotation matrix. -/
noncomputable def glmRotate (theta : ℝ) (v : Vec3) : Mat4 :=
  axisAngleM theta (normalize3 v)

/-- The translation column of a glm matrix, `glm::vec3(m[3])` for
column-major glm (row-major entries `(0,3), (1,3), (2,3)` here). -/
def translationOf (m : Mat4) : Vec3 := ⟨m 0 3, m 1 3, m 2 3⟩

/-! ### Celestial bodies, registry, and the per-frame transform solver -/

/-- The CelestialBody record from scenario.h (render handles omitted;
`currentModelMatrix` is carried separately in the registry below, since
the solver reads it through `bodyMap`). -/
structure CelestialBody where
  name : String
  radius : ℝ
  texturePath : String
  isEmissive : Bool
  orbitRadius : ℝ
  orbitSpeed : ℝ
  rotationSpeed : ℝ
  rotationAxis : Vec3
  parentName : Option String

/-- A registry entry: the body together with its `currentModelMatrix`. -/
structure BodyState where
  body : CelestialBody
  currentModelMatrix : Mat4

/-- The `bodyMap` name lookup structure (std::map<std::string,
CelestialBody*>), embedded as an association list. -/
abbrev Registry := List (String × BodyState)

/-- The orbit translation matrix of the render loop (main.cpp lines
379-387): identity unless `orbitRadius > 0`, in which case it translates
by `(cos(t*orbitSpeed)*R, 0, sin(t*orbitSpeed)*R)`. -/
noncomputable def orbitTranslationM (t : ℝ) (b : CelestialBody) : Mat4 :=
  if 0 < b.orbitRadius then
    translateM ⟨Real.cos (t * b.orbitSpeed) * b.orbitRadius, 0,
      Real.sin (t * b.orbitSpeed) * b.orbitRadius⟩
  else 1

/-- The self-rotation matrix (main.cpp line 389):
`glm::rotate(I, accumulatedSimTime * rotationSpeed, glm::normalize(rotationAxis))`. -/
noncomputable def selfRotationM (t : ℝ) (b : CelestialBody) : Mat4 :=
  glmRotate (t * b.rotationSpeed) (normalize3 b.rotationAxis)

/-- The parent position read in the render loop (main.cpp lines 393-405):
origin if un-parented; otherwise the translation column of the parent's
`currentModelMatrix` found through `bodyMap`, or the origin when the
lookup fails. -/
def parentPosition (reg : Registry) (b : CelestialBody) : Vec3 :=
  match b.parentName with
  | none => 0
  | some n =>
      match reg.lookup n with
      | some st => translationOf st.currentModelMatrix
      | none => 0

/-- The orbital offset as the code computes it:
`glm::vec3(orbitTranslation * glm::vec4(0,0,0,1))` (main.cpp line 408). -/
noncomputable def orbitalOffset (t : ℝ) (b : CelestialBody) : Vec3 :=
  let w := (orbitTranslationM t b).mulVec ![0, 0, 0, 1]
  ⟨w 0, w 1, w 2⟩

/-- `finalPosition = parentPosition + orbital offset` (main.cpp line 408). -/
noncomputable def finalPosition (reg : Registry) (b : CelestialBody) (t : ℝ) : Vec3 :=
  parentPosition reg b + orbitalOffset t b

/-- The world matrix stored into `currentModelMatrix` (main.cpp lines
414-419): translate to the final position, then self-rotate, then scale
by the body radius. -/
noncomputable def computeModelMatrix (reg : Registry) (b : CelestialBody) (t : ℝ) : Mat4 :=
  translateM (finalPosition reg b t) * selfRotationM t b * scaleM b.radius

theorem normalize3_unit {v : Vec3} (h : 0 < dot3 v v) :
    dot3 (normalize3 v) (normalize3 v) = 1 := by
  have hn : 0 < norm3 v := Real.sqrt_pos.mpr h
  have hm := norm3_mul_self v
  unfold dot3 normalize3
  field_simp
  unfold dot3 at hm
  nlinarith [hm]

theorem normalize3_idem (v : Vec3) : normalize3 (normalize3 v) = normalize3 v := by
  rcases lt_or_eq_of_le (dot3_self_nonneg v) with hpos | hzero
  · exact normalize3_of_unit (normalize3_unit hpos)
  · have hx : v.x = 0 := by
      unfold dot3 at hzero; nlinarith [sq_nonneg v.x, sq_nonneg v.y, sq_nonneg v.z]
    have hy : v.y = 0 := by
      unfold dot3 at hzero; nlinarith [sq_nonneg v.x, sq_nonneg v.y, sq_nonneg v.z]
    have hz : v.z = 0 := by
      unfold dot3 at hzero; nlinarith [sq_nonneg v.x, sq_nonneg v.y, sq_nonneg v.z]
    have hv : normalize3 v = v := by
      rcases v with ⟨vx, vy, vz⟩
      simp only at hx hy hz
      subst hx; subst hy; subst hz
      simp [normalize3]
    rw [hv]
    exact hv

theorem translateM_mulVec (v : Vec3) :
    (translateM v).mulVec ![0, 0, 0, 1] = ![v.x, v.y, v.z, 1] := by
  funext i
  fin_cases i <;>
    simp [translateM, Matrix.mulVec, Matrix.dotProduct, Fin.sum_univ_four]

/-- The orbital offset as the specification states it: the zero vector
when `orbitRadius = 0`, else `(cos(t*orbitSpeed)*R, 0, sin(t*orbitSpeed)*R)`. -/
noncomputable def orbitalOffsetSpec (t : ℝ) (b : CelestialBody) : Vec3 :=
  if b.orbitRadius = 0 then 0
  else ⟨Real.cos (t * b.orbitSpeed) * b.orbitRadius, 0,
    Real.sin (t * b.orbitSpeed) * b.orbitRadius⟩

theorem orbitalOffset_eq_spec (t : ℝ) (b : CelestialBody)
    (hR : 0 ≤ b.orbitRadius) : orbitalOffset t b = orbitalOffsetSpec t b := by
  rcases lt_or_eq_of_le hR with hlt | heq
  · unfold orbitalOffset orbitTranslationM orbitalOffsetSpec
    rw [if_pos hlt, if_neg hlt.ne', translateM_mulVec]
    simp
  · unfold orbitalOffset orbitTranslationM orbitalOffsetSpec
    rw [if_neg (by rw [← heq]; exact lt_irrefl 0), if_pos heq.symm,
      Matrix.one_mulVec]
    rfl

/-- Claim C1: for every body with non-negative orbit radius (a distance,
per the data model) and every simulation time `t`, the world matrix the
render loop stores equals
`translate(parentWorldPosition + orbitalOffset) * selfRotation * scale(radius)`,
where the orbital offset is `(cos(t*orbitSpeed)*R, 0, sin(t*orbitSpeed)*R)`
for nonzero `R` and zero for `R = 0`, the self-rotation is the rotation by
`t*rotationSpeed` about the normalized rotation axis, and the parent world
position is the translation column of the parent's current world matrix
(origin when un-parented). -/
theorem worldMatrix_factorization (reg : Registry) (b : CelestialBody) (t : ℝ)
    (hR : 0 ≤ b.orbitRadius) :
    computeModelMatrix reg b t =
      translateM (parentPosition reg b + orbitalOffsetSpec t b) *
        axisAngleM (t * b.rotationSpeed) (normalize3 b.rotationAxis) *
          scaleM b.radius := by
  unfold computeModelMatrix finalPosition selfRotationM glmRotate
  rw [normalize3_idem, orbitalOffset_eq_spec t b hR]

/-- A concrete Earth-like body (parameters from
loadScenario_SolarSystemBasic). -/
noncomputable def earthLike : CelestialBody :=
  ⟨"Earth", 1/2, "textures/earth.jpg", false, 10, 1/2, 1, ⟨0, 1, 0⟩, some "Sun"⟩

/-- Witness for C1: the factorization at the Earth-like body, empty
registry, time 0. -/
theorem worldMatrix_factorization_witness :
    (0 : ℝ) ≤ earthLike.orbitRadius ∧
      computeModelMatrix [] earthLike 0 =
        translateM (parentPosition [] earthLike + orbitalOffsetSpec 0 earthLike) *
          axisAngleM (0 * earthLike.rotationSpeed) (normalize3 earthLike.rotationAxis) *
            scaleM earthLike.radius :=
  ⟨by norm_num [earthLike],
   worldMatrix_factorization [] earthLike 0 (by norm_num [earthLike])⟩

/-- A body whose rotation axis is the zero vector (latent in the shipped
scenario, but a valid record per the data model). -/
noncomputable def zeroAxisBody : CelestialBody :=
  ⟨"ZeroAxis", 1, "", false, 0, 0, 1, ⟨0, 0, 0⟩, none⟩

/-- Claim C2 (failing input): the render loop normalizes the rotation
axis unconditionally (main.cpp line 389), with no zero-axis guard.  At
`t = pi` the self-rotation factor of a zero-axis body has `-1` at entry
`(0,0)` in the exact-arithmetic idealization (where normalizing the zero
vector yields the zero vector), so it is not the identity the spec
demands; in IEEE float arithmetic the same expression is NaN. -/
theorem zeroAxis_rotation_not_identity :
    selfRotationM Real.pi zeroAxisBody 0 0 = -1 ∧
      selfRotationM Real.pi zeroAxisBody ≠ 1 := by
  have hz : normalize3 (⟨0, 0, 0⟩ : Vec3) = ⟨0, 0, 0⟩ := by
    simp [normalize3]
  have hentry : selfRotationM Real.pi zeroAxisBody 0 0 = -1 := by
    unfold selfRotationM glmRotate zeroAxisBody
    simp only
    rw [hz, hz]
    simp [axisAngleM, Real.cos_pi]
  refine ⟨hentry, fun hcontr => ?_⟩
  have h1 : (1 : Mat4) 0 0 = 1 := Matrix.one_apply_eq 0
  rw [hcontr, h1] at hentry
  norm_num at hentry

/-- Claim C3: a body whose declared parent name matches nothing in the
registry resolves its world position exactly as if it had no parent, for
every simulation time. -/
theorem dangling_parent_as_unparented (reg : Registry) (b : CelestialBody)
    (t : ℝ) (n : String) (hp : b.parentName = some n)
    (hn : reg.lookup n = none) :
    finalPosition reg b t = finalPosition reg { b with parentName := none } t := by
  unfold finalPosition parentPosition orbitalOffset orbitTranslationM
  simp [hp, hn]

/-- A body whose declared parent is absent from the registry. -/
noncomputable def orphanBody : CelestialBody :=
  ⟨"Orphan", 1, "", false, 4, 1, 1, ⟨0, 1, 0⟩, some "Ghost"⟩

/-- Witness for C3: the orphan body against the empty registry. -/
theorem dangling_parent_witness :
    orphanBody.parentName = some "Ghost" ∧
      ([] : Registry).lookup "Ghost" = none ∧
        finalPosition [] orphanBody 2 =
          finalPosition [] { orphanBody with parentName := none } 2 :=
  ⟨rfl, rfl, dangling_parent_as_unparented [] orphanBody 2 "Ghost" rfl rfl⟩

/-- Claim C8: with its parent's position held fixed (the registry is the
same on both sides), a body with orbit speed `w` has the same resolved
world position at `t` and at `t + 2*pi/w`. -/
theorem orbit_position_periodic (reg : Registry) (b : CelestialBody)
    (t w : ℝ) (hs : b.orbitSpeed = w) (h0 : w ≠ 0) :
    finalPosition reg b (t + 2 * Real.pi / w) = finalPosition reg b t := by
  have hang : (t + 2 * Real.pi / w) * b.orbitSpeed = t * b.orbitSpeed + 2 * Real.pi := by
    rw [hs]; field_simp
  unfold finalPosition orbitalOffset orbitTranslationM
  rw [hang, Real.cos_add_two_pi, Real.sin_add_two_pi]

/-- Witness for C8: one orbital period of the Earth-like body
(`orbitSpeed = 1/2`). -/
theorem orbit_position_periodic_witness :
    earthLike.orbitSpeed = 1/2 ∧ ((1/2 : ℝ) ≠ 0) ∧
      finalPosition [] earthLike (3 + 2 * Real.pi / (1/2)) =
        finalPosition [] earthLike 3 :=
  ⟨rfl, by norm_num,
   orbit_position_periodic [] earthLike 3 (1/2) rfl (by norm_num)⟩

/-! ### Camera rig: locking onto a body (lockCameraToBody, main.cpp lines 116-144) -/

/-- glm::degrees. -/
noncomputable def degreesR (x : ℝ) : ℝ := x * (180 / Real.pi)

/-- glm::radians. -/
noncomputable def radiansR (x : ℝ) : ℝ := x * (Real.pi / 180)

/-- std::clamp on reals. -/
noncomputable def clampR (v lo hi : ℝ) : ℝ :=
  if v < lo then lo else if hi < v then hi else v

/-- C atan2(y, x), written with Real.arctan by quadrant. -/
noncomputable def atan2R (y x : ℝ) : ℝ :=
  if 0 < x then Real.arctan (y / x)
  else if x < 0 ∧ 0 ≤ y then Real.arctan (y / x) + Real.pi
  else if x < 0 then Real.arctan (y / x) - Real.pi
  else if 0 < y then Real.pi / 2
  else if y < 0 then -(Real.pi / 2)
  else 0

/-- The camera-rig globals touched by lockCameraToBody: lock pointer and
name, orbit distance/yaw/pitch, the camera's FOV (`camera.Zoom`) and
position, and the planet-cycling index. -/
structure CameraRigState where
  cameraLockedTo : Option String
  lockedBodyName : String
  lockedCameraDistance : ℝ
  lockedCameraOrbitYaw : ℝ
  lockedCameraOrbitPitch : ℝ
  cameraPosition : Vec3
  cameraZoom : ℝ
  currentLockIndex : ℤ

/-- lockCameraToBody (main.cpp lines 116-144): look the name up in
`bodyMap`; if absent do nothing, otherwise set the lock, reset distance to
`radius * 5` and FOV to the default 45, initialize orbit angles from the
current camera-to-target direction (pitch clamped to `[-89, 89]`), and
update the cycling index from `lockablePlanetNames`. -/
noncomputable def lockCameraToBody (reg : Registry) (lockable : List String)
    (s : CameraRigState) (name : String) : CameraRigState :=
  match reg.lookup name with
  | none => s
  | some st =>
      let direction := normalize3 (s.cameraPosition - translationOf st.currentModelMatrix)
      { cameraLockedTo := some name
        lockedBodyName := name
        lockedCameraDistance := st.body.radius * 5
        lockedCameraOrbitYaw := degreesR (atan2R direction.z direction.x)
        lockedCameraOrbitPitch := clampR (degreesR (Real.arcsin direction.y)) (-89) 89
        cameraPosition := s.cameraPosition
        cameraZoom := 45
        currentLockIndex :=
          if name ∈ lockable then (lockable.indexOf name : ℤ) else -1 }

/-- Claim C7: a lock-to(name) command whose name matches no body in the
registry changes no camera-rig state at all: mode, lock target, orbit
distance and angles, FOV and lock-cycle index are all unchanged. -/
theorem lock_unknown_name_noop (reg : Registry) (lockable : List String)
    (s : CameraRigState) (name : String) (h : reg.lookup name = none) :
    lockCameraToBody reg lockable s name = s := by
  unfold lockCameraToBody
  rw [h]

/-- Witness for C7: locking onto a name absent from an empty registry
leaves a concrete rig state untouched. -/
theorem lock_unknown_name_noop_witness :
    ([] : Registry).lookup "Pluto" = none ∧
      lockCameraToBody [] ["Mercury", "Venus"]
          ⟨none, "None", 10, -90, 0, ⟨0, 5, 20⟩, 45, -1⟩ "Pluto" =
        ⟨none, "None", 10, -90, 0, ⟨0, 5, 20⟩, 45, -1⟩ :=
  ⟨rfl, lock_unknown_name_noop [] ["Mercury", "Venus"]
    ⟨none, "None", 10, -90, 0, ⟨0, 5, 20⟩, 45, -1⟩ "Pluto" rfl⟩

/-! ### Free-fly camera basis (Camera::updateCameraVectors, camera.cpp lines 104-117) -/

/-- The Camera class state (camera.h). -/
structure CameraState where
  Position : Vec3
  Front : Vec3
  Up : Vec3
  Right : Vec3
  WorldUp : Vec3
  Yaw : ℝ
  Pitch : ℝ
  MovementSpeed : ℝ
  MouseSensitivity : ℝ
  Zoom : ℝ

/-- Camera::updateCameraVectors: rebuild Front from the Euler angles and
re-derive Right and Up by normalized cross products. -/
noncomputable def updateCameraVectors (c : CameraState) : CameraState :=
  let front : Vec3 :=
    ⟨Real.cos (radiansR c.Yaw) * Real.cos (radiansR c.Pitch),
     Real.sin (radiansR c.Pitch),
     Real.sin (radiansR c.Yaw) * Real.cos (radiansR c.Pitch)⟩
  let f := normalize3 front
  let r := normalize3 (cross3 f c.WorldUp)
  let u := normalize3 (cross3 r f)
  { c with Front := f, Right := r, Up := u }

theorem norm3_eq_one {v : Vec3} (h : dot3 v v = 1) : norm3 v = 1 := by
  rw [norm3, h, Real.sqrt_one]

theorem front_dot_one (y p : ℝ) :
    dot3 ⟨Real.cos y * Real.cos p, Real.sin p, Real.sin y * Real.cos p⟩
      ⟨Real.cos y * Real.cos p, Real.sin p, Real.sin y * Real.cos p⟩ = 1 := by
  unfold dot3
  linear_combination Real.cos p ^ 2 * Real.sin_sq_add_cos_sq y +
    Real.sin_sq_add_cos_sq p

/-- Claim C10: after updateCameraVectors, with the world up vector
`(0,1,0)` and pitch within `[-89, 89]` degrees, the Front, Right and Up
vectors are unit length and pairwise orthogonal: the view basis is never
degenerate. -/
theorem camera_basis_orthonormal (c : CameraState)
    (hup : c.WorldUp = ⟨0, 1, 0⟩) (h1 : -89 ≤ c.Pitch) (h2 : c.Pitch ≤ 89) :
    norm3 (updateCameraVectors c).Front = 1 ∧
      norm3 (updateCameraVectors c).Right = 1 ∧
        norm3 (updateCameraVectors c).Up = 1 ∧
          dot3 (updateCameraVectors c).Front (updateCameraVectors c).Right = 0 ∧
            dot3 (updateCameraVectors c).Front (updateCameraVectors c).Up = 0 ∧
              dot3 (updateCameraVectors c).Right (updateCameraVectors c).Up = 0 := by
  obtain ⟨Pos, F0, U0, R0, W, cyaw, cpitch, ms, sens, zoom⟩ := c
  simp only at hup h1 h2
  subst hup
  simp only [updateCameraVectors]
  set y := radiansR cyaw with hy
  set p := radiansR cpitch with hp
  have hpi := Real.pi_pos
  have hcp : 0 < Real.cos p := by
    apply Real.cos_pos_of_mem_Ioo
    constructor
    · show -(Real.pi / 2) < p
      rw [hp]; unfold radiansR
      nlinarith [mul_nonneg (by linarith : (0:ℝ) ≤ cpitch + 89) hpi.le]
    · show p < Real.pi / 2
      rw [hp]; unfold radiansR
      nlinarith [mul_nonneg (by linarith : (0:ℝ) ≤ 89 - cpitch) hpi.le]
  have hf : normalize3 ⟨Real.cos y * Real.cos p, Real.sin p,
      Real.sin y * Real.cos p⟩ =
      ⟨Real.cos y * Real.cos p, Real.sin p, Real.sin y * Real.cos p⟩ :=
    normalize3_of_unit (front_dot_one y p)
  have hcross1 : cross3 ⟨Real.cos y * Real.cos p, Real.sin p,
      Real.sin y * Real.cos p⟩ ⟨0, 1, 0⟩ =
      ⟨-(Real.sin y * Real.cos p), 0, Real.cos y * Real.cos p⟩ := by
    unfold cross3
    rw [Vec3.ext_iff]
    refine ⟨by ring, by ring, by ring⟩
  have hR : normalize3 ⟨-(Real.sin y * Real.cos p), 0, Real.cos y * Real.cos p⟩ =
      ⟨-(Real.sin y), 0, Real.cos y⟩ := by
    have hd : dot3 ⟨-(Real.sin y * Real.cos p), 0, Real.cos y * Real.cos p⟩
        ⟨-(Real.sin y * Real.cos p), 0, Real.cos y * Real.cos p⟩ =
        Real.cos p * Real.cos p := by
      unfold dot3
      linear_combination Real.cos p ^ 2 * Real.sin_sq_add_cos_sq y
    rw [normalize3_eq_div hcp hd, Vec3.ext_iff]
    refine ⟨by field_simp, by field_simp, by field_simp⟩
  have hcross2 : cross3 ⟨-(Real.sin y), 0, Real.cos y⟩
      ⟨Real.cos y * Real.cos p, Real.sin p, Real.sin y * Real.cos p⟩ =
      ⟨-(Real.cos y * Real.sin p), Real.cos p, -(Real.sin y * Real.sin p)⟩ := by
    unfold cross3
    rw [Vec3.ext_iff]
    refine ⟨by ring, ?_, by ring⟩
    show Real.cos y * (Real.cos y * Real.cos p) -
        -(Real.sin y) * (Real.sin y * Real.cos p) = Real.cos p
    linear_combination Real.cos p * Real.sin_sq_add_cos_sq y
  have hU : normalize3 ⟨-(Real.cos y * Real.sin p), Real.cos p,
      -(Real.sin y * Real.sin p)⟩ =
      ⟨-(Real.cos y * Real.sin p), Real.cos p, -(Real.sin y * Real.sin p)⟩ := by
    apply normalize3_of_unit
    unfold dot3
    linear_combination Real.sin p ^ 2 * Real.sin_sq_add_cos_sq y +
      Real.sin_sq_add_cos_sq p
  rw [hf, hcross1, hR, hcross2, hU]
  refine ⟨norm3_eq_one (front_dot_one y p), ?_, ?_, ?_, ?_, ?_⟩
  · apply norm3_eq_one
    unfold dot3
    linear_combination Real.sin_sq_add_cos_sq y
  · apply norm3_eq_one
    unfold dot3
    linear_combination Real.sin p ^ 2 * Real.sin_sq_add_cos_sq y +
      Real.sin_sq_add_cos_sq p
  · unfold dot3; ring
  · unfold dot3
    linear_combination (-(Real.sin p * Real.cos p)) * Real.sin_sq_add_cos_sq y
  · unfold dot3; ring

/-- Witness for C10: the default camera (yaw -90, pitch 0, world up
`(0,1,0)`) has an orthonormal basis after updateCameraVectors. -/
theorem camera_basis_orthonormal_witness :
    ((⟨⟨0, 5, 20⟩, ⟨0, 0, -1⟩, ⟨0, 1, 0⟩, ⟨1, 0, 0⟩, ⟨0, 1, 0⟩, -90, 0, 5, 1/10,
        45⟩ : CameraState).WorldUp = ⟨0, 1, 0⟩ ∧
      (-89 : ℝ) ≤ 0 ∧ (0 : ℝ) ≤ 89) ∧
      norm3 (updateCameraVectors
        ⟨⟨0, 5, 20⟩, ⟨0, 0, -1⟩, ⟨0, 1, 0⟩, ⟨1, 0, 0⟩, ⟨0, 1, 0⟩, -90, 0, 5, 1/10,
          45⟩).Front = 1 :=
  ⟨⟨rfl, by norm_num, by norm_num⟩,
   (camera_basis_orthonormal
      ⟨⟨0, 5, 20⟩, ⟨0, 0, -1⟩, ⟨0, 1, 0⟩, ⟨1, 0, 0⟩, ⟨0, 1, 0⟩, -90, 0, 5, 1/10,
        45⟩ rfl (by norm_num) (by norm_num)).1⟩

end SolarSystem
